import Mathlib

/-!
Shallow embedding of the normalized inventory store of
`src/capstone/store/slices/inventorySlice.ts`.

The Redux entity-adapter state `{ ids : string[], entities : Record<string, Product> }`
is modelled as a single list of products kept in the `ids` iteration order
(name-ascending, maintained by the adapter sort comparer); `entities` lookup is
list lookup by `id`.  The reducer actions (`setFilter`, `clearFilters`, `setSort`,
`updateStock`, and the fulfilled/pending/rejected cases of the thunks
`fetchInventory`, `addProduct`, `updateProduct`, `deleteProduct`) become pure
functions on this state.  Sources of nondeterminism in the thunks (`Math.random`,
`Date.now`, `new Date().toISOString()`) become explicit parameters of the actions.
`localeCompare` on names is modelled by the string order `≤`.
-/

namespace Inventory

/-- The three values of the `status` field of `Product`. -/
inductive Status where
  | inStock
  | lowStock
  | outOfStock
deriving DecidableEq, Repr

/-- The string each status renders to in the TypeScript source
(in-stock, low-stock, out-of-stock). -/
def statusLabel : Status → String
  | .inStock => "in-stock"
  | .lowStock => "low-stock"
  | .outOfStock => "out-of-stock"

/-- The `Product` interface.  `price` and `quantity` are JavaScript numbers;
the code only ever adds, multiplies and compares them, so they are modelled
as integers. -/
structure Product where
  id : String
  name : String
  sku : String
  category : String
  price : Int
  quantity : Int
  minStock : Int
  status : Status
  lastUpdated : String
deriving DecidableEq, Repr

/-- Model of `FetchStatus`: idle, loading, succeeded or failed. -/
inductive FetchStatus where
  | idle
  | loading
  | succeeded
  | failed
deriving DecidableEq, Repr

/-- The `filter` sub-record of the slice state. -/
structure Filter where
  category : String
  status : String
  searchTerm : String
deriving DecidableEq, Repr

/-- Model of `sortOrder`: asc or desc. -/
inductive SortOrder where
  | asc
  | desc
deriving DecidableEq, Repr

/-- The slice state: the entity-adapter collection (`ids` + `entities`,
here one ordered list) together with request status, error, filter and sort. -/
structure InventoryState where
  products : List Product
  status : FetchStatus
  error : Option String
  filter : Filter
  sortBy : String
  sortOrder : SortOrder
deriving DecidableEq, Repr

/-- Model of `initialState`: the adapter initial state (empty collection) plus
status idle, null error, the all/all/empty filter, and name-ascending sort. -/
def initialState : InventoryState :=
  { products := []
    status := .idle
    error := none
    filter := { category := "all", status := "all", searchTerm := "" }
    sortBy := "name"
    sortOrder := .asc }

/-- The status computation that appears verbatim in `generateMockProducts`,
in the `addProduct` thunk and in the `updateStock` reducer:
out-of-stock when the quantity is zero, low-stock when it is below minStock,
in-stock otherwise. -/
def computeStatus (quantity minStock : Int) : Status :=
  if quantity = 0 then .outOfStock
  else if quantity < minStock then .lowStock
  else .inStock

/-- `String.prototype.padStart(len, c)`. -/
def padStart (s : String) (len : Nat) (c : Char) : String :=
  String.mk (List.replicate (len - s.length) c) ++ s

/-- The fixed category pool of the mock generator. -/
def categoryPool : List String :=
  ["Electronics", "Clothing", "Food", "Books", "Sports", "Home"]

/-- `generateMockProducts(count)`.  The `Math.random()` draws for quantity,
category index, price and timestamp are passed in as functions of the item
index; `Math.floor(Math.random()*n)` is modelled as `r i % n`. -/
def generateMockProducts (count : Nat) (qRand cRand pRand : Nat → Nat)
    (tRand : Nat → String) : List Product :=
  (List.range count).map (fun index =>
    let quantity : Int := Int.ofNat (qRand index % 100)
    let minStock : Int := 10
    { id := "PROD-" ++ padStart (toString (index + 1)) 5 '0'
      name := "Product " ++ toString (index + 1)
      sku := "SKU-" ++ padStart (toString (index + 1)) 6 '0'
      category := (categoryPool.getD (cRand index % categoryPool.length) "Electronics")
      price := Int.ofNat (pRand index % 1000) + 10
      quantity := quantity
      minStock := minStock
      status := computeStatus quantity minStock
      lastUpdated := tRand index })

/-- The argument of the `addProduct` thunk:
a product without its id, lastUpdated and status fields. -/
structure ProductDraft where
  name : String
  sku : String
  category : String
  price : Int
  quantity : Int
  minStock : Int
deriving DecidableEq, Repr

/-- The product the `addProduct` thunk resolves with: the draft plus
`id = PROD-${Date.now()}`, the computed status, and a fresh timestamp.
`Date.now()` is the `now` parameter. -/
def mkAddedProduct (d : ProductDraft) (now : Nat) (ts : String) : Product :=
  { id := "PROD-" ++ toString now
    name := d.name
    sku := d.sku
    category := d.category
    price := d.price
    quantity := d.quantity
    minStock := d.minStock
    status := computeStatus d.quantity d.minStock
    lastUpdated := ts }

/-- `Partial<Product>`: the `changes` argument of the `updateProduct` thunk.
Every field of `Product` may be supplied. -/
structure Changes where
  id : Option String := none
  name : Option String := none
  sku : Option String := none
  category : Option String := none
  price : Option Int := none
  quantity : Option Int := none
  minStock : Option Int := none
  status : Option Status := none
  lastUpdated : Option String := none
deriving DecidableEq, Repr

/-- `Object.assign(entity, changes)`: each supplied field overrides the
field of the entity. -/
def applyChanges (p : Product) (c : Changes) : Product :=
  { id := c.id.getD p.id
    name := c.name.getD p.name
    sku := c.sku.getD p.sku
    category := c.category.getD p.category
    price := c.price.getD p.price
    quantity := c.quantity.getD p.quantity
    minStock := c.minStock.getD p.minStock
    status := c.status.getD p.status
    lastUpdated := c.lastUpdated.getD p.lastUpdated }

/-- Insert a product into a name-sorted list, preserving sortedness
(the adapter sort comparer compares names with localeCompare). -/
def insertSorted (p : Product) : List Product → List Product
  | [] => [p]
  | q :: rest => if p.name ≤ q.name then p :: q :: rest else q :: insertSorted p rest

/-- Sort a product list by name (the adapter resort of the whole collection). -/
def sortByName : List Product → List Product
  | [] => []
  | p :: rest => insertSorted p (sortByName rest)

/-- First-occurrence-wins deduplication by a key, with an accumulator of keys
already seen.  Models keyed-map insertion: a key can hold only one entry. -/
def dedupByAux {α β : Type} [DecidableEq β] (k : α → β) (seen : List β) :
    List α → List α
  | [] => []
  | x :: rest =>
    if k x ∈ seen then dedupByAux k seen rest
    else x :: dedupByAux k (k x :: seen) rest

/-- Deduplicate a list by a key, keeping first occurrences.  Used for the
keyed `entities` map of `setAll` (payload ids are pairwise distinct in
practice, so this never drops anything there) and for
`Array.from(new Set(...))` in the statistics selector. -/
def dedupBy {α β : Type} [DecidableEq β] (k : α → β) (l : List α) : List α :=
  dedupByAux k [] l

/-- `inventoryAdapter.setAll`: replace the whole collection with the payload,
keyed by id and resorted. -/
def setAll (s : InventoryState) (ps : List Product) : InventoryState :=
  { s with products := sortByName (dedupBy Product.id ps) }

/-- `inventoryAdapter.addOne`: insert the entity unless its id is already
present (in which case the call is ignored). -/
def addOne (s : InventoryState) (p : Product) : InventoryState :=
  if s.products.any (fun q => q.id = p.id) then s
  else { s with products := insertSorted p s.products }

/-- `inventoryAdapter.updateOne(state, {id, changes})`: if no entity has the
id, do nothing; otherwise assign the changes onto the entity (under its
possibly-changed id, overwriting any entity already at that id) and resort. -/
def updateOne (s : InventoryState) (pid : String) (c : Changes) : InventoryState :=
  match s.products.find? (fun p => p.id = pid) with
  | none => s
  | some p =>
    let updated := applyChanges p c
    { s with products := (insertSorted updated
        ((s.products.filter (fun q => q.id ≠ pid)).filter
          (fun q => q.id ≠ updated.id))) }

/-- `inventoryAdapter.removeOne`: drop the entity with the id, if any. -/
def removeOne (s : InventoryState) (pid : String) : InventoryState :=
  { s with products := s.products.filter (fun p => p.id ≠ pid) }

/-- The `updateStock` reducer: if the id is present, set the quantity,
recompute the status with the same chain as `computeStatus`, and refresh
`lastUpdated`; if the id is absent the reducer body is skipped. -/
def updateStock (s : InventoryState) (pid : String) (q : Int) (ts : String) :
    InventoryState :=
  { s with products := s.products.map (fun p =>
      if p.id = pid then
        { p with quantity := q, status := computeStatus q p.minStock, lastUpdated := ts }
      else p) }

/-- The key argument of the `setFilter` reducer. -/
inductive FilterKey where
  | category
  | status
  | searchTerm
deriving DecidableEq, Repr

/-- The `setFilter` reducer: `state.filter[key] = value`. -/
def setFilter (s : InventoryState) (k : FilterKey) (v : String) : InventoryState :=
  match k with
  | .category => { s with filter := { s.filter with category := v } }
  | .status => { s with filter := { s.filter with status := v } }
  | .searchTerm => { s with filter := { s.filter with searchTerm := v } }

/-- One dispatched action handled by the slice reducer.  Thunk lifecycle
actions carry the data their payloads carry at dispatch time. -/
inductive Action where
  | fetchPending
  | fetchFulfilled (count : Nat) (qRand cRand pRand : Nat → Nat) (tRand : Nat → String)
  | fetchRejected (msg : String)
  | addFulfilled (draft : ProductDraft) (now : Nat) (ts : String)
  | updateFulfilled (pid : String) (changes : Changes) (ts : String)
  | deleteFulfilled (pid : String)
  | updateStockAct (pid : String) (quantity : Int) (ts : String)
  | setFilterAct (key : FilterKey) (value : String)
  | clearFiltersAct
  | setSortAct (sortBy : String) (sortOrder : SortOrder)

/-- The slice reducer: one case per handled action, byte-for-byte following
the `reducers` and `extraReducers` blocks. -/
def step (s : InventoryState) (a : Action) : InventoryState :=
  match a with
  | .fetchPending => { s with status := .loading, error := none }
  | .fetchFulfilled count qR cR pR tR =>
    setAll { s with status := .succeeded } (generateMockProducts count qR cR pR tR)
  | .fetchRejected msg => { s with status := .failed, error := some msg }
  | .addFulfilled d now ts => addOne s (mkAddedProduct d now ts)
  | .updateFulfilled pid c ts => updateOne s pid { c with lastUpdated := some ts }
  | .deleteFulfilled pid => removeOne s pid
  | .updateStockAct pid q ts => updateStock s pid q ts
  | .setFilterAct k v => setFilter s k v
  | .clearFiltersAct =>
    { s with filter := { category := "all", status := "all", searchTerm := "" } }
  | .setSortAct sb so => { s with sortBy := sb, sortOrder := so }

/-- States reachable from `initialState` by any dispatch sequence. -/
inductive Reachable : InventoryState → Prop where
  | init : Reachable initialState
  | next (s : InventoryState) (a : Action) : Reachable s → Reachable (step s a)

/-- Whether an action is the `updateProduct.fulfilled` case. -/
def Action.isUpdateAct : Action → Bool
  | .updateFulfilled _ _ _ => true
  | _ => false

/-- Whether an action belongs to the `fetchInventory` thunk lifecycle. -/
def Action.isFetchAct : Action → Bool
  | .fetchPending => true
  | .fetchFulfilled _ _ _ _ _ => true
  | .fetchRejected _ => true
  | _ => false

/-- States reachable without any `updateProduct.fulfilled` action. -/
inductive ReachableNoUpd : InventoryState → Prop where
  | init : ReachableNoUpd initialState
  | next (s : InventoryState) (a : Action) :
      ReachableNoUpd s → a.isUpdateAct = false → ReachableNoUpd (step s a)

/-- States reachable when every `load` settles (fulfilled or rejected)
before anything else is dispatched: the pending action and its settlement
form one atomic block, so loads never overlap. -/
inductive ReachableAtomic : InventoryState → Prop where
  | init : ReachableAtomic initialState
  | loadOk (s : InventoryState) (count : Nat) (qR cR pR : Nat → Nat) (tR : Nat → String) :
      ReachableAtomic s →
      ReachableAtomic (step (step s .fetchPending) (.fetchFulfilled count qR cR pR tR))
  | loadErr (s : InventoryState) (msg : String) :
      ReachableAtomic s →
      ReachableAtomic (step (step s .fetchPending) (.fetchRejected msg))
  | other (s : InventoryState) (a : Action) :
      ReachableAtomic s → a.isFetchAct = false → ReachableAtomic (step s a)

/-- `selectAllProducts`: `ids` mapped through `entities`, i.e. the ordered list. -/
def selectAllProducts (s : InventoryState) : List Product :=
  s.products

/-- `needle` is a prefix of `hay` (character lists). -/
def beginsWith : List Char → List Char → Bool
  | [], _ => true
  | _ :: _, [] => false
  | a :: as, b :: bs => a = b && beginsWith as bs

/-- `needle` occurs as a contiguous substring of `hay` (character lists). -/
def listHas (hay needle : List Char) : Bool :=
  match hay with
  | [] => needle.isEmpty
  | _ :: t => beginsWith needle hay || listHas t needle

/-- `String.prototype.includes`. -/
def strHas (hay needle : String) : Bool :=
  listHas hay.data needle.data

/-- `selectFilteredProducts`: AND of the category, status and
case-insensitive name-or-sku search predicates. -/
def selectFilteredProducts (s : InventoryState) : List Product :=
  s.products.filter (fun product =>
    let matchesCategory := s.filter.category = "all" || product.category = s.filter.category
    let matchesStatus := s.filter.status = "all" || statusLabel product.status = s.filter.status
    let matchesSearch := s.filter.searchTerm = ""
      || strHas product.name.toLower s.filter.searchTerm.toLower
      || strHas product.sku.toLower s.filter.searchTerm.toLower
    matchesCategory && matchesStatus && matchesSearch)

/-- The record returned by `selectInventoryStats`. -/
structure InventoryStats where
  total : Nat
  inStock : Nat
  lowStock : Nat
  outOfStock : Nat
  totalValue : Int
  categories : List String
deriving DecidableEq, Repr

/-- `selectInventoryStats`: computed from `selectAllProducts`. -/
def selectInventoryStats (s : InventoryState) : InventoryStats :=
  let products := selectAllProducts s
  { total := products.length
    inStock := (products.filter (fun p => p.status = Status.inStock)).length
    lowStock := (products.filter (fun p => p.status = Status.lowStock)).length
    outOfStock := (products.filter (fun p => p.status = Status.outOfStock)).length
    totalValue := products.foldl (fun sum p => sum + p.price * p.quantity) 0
    categories := dedupBy (fun c => c) (products.map (fun p => p.category)) }

/-- The status invariant of the spec: every status tag in the collection is the
one recomputed from the quantity and the minimum-stock threshold. -/
def StatusConsistent (s : InventoryState) : Prop :=
  ∀ p ∈ s.products, p.status = computeStatus p.quantity p.minStock

/-- The id-uniqueness invariant: the ids of the collection are pairwise
distinct. -/
def UniqueIds (s : InventoryState) : Prop :=
  (s.products.map Product.id).Nodup

/-- A well-formed draft used by several witnesses. -/
def sampleDraft : ProductDraft :=
  { name := "Widget", sku := "SKU-W", category := "Books"
    price := 10, quantity := 50, minStock := 10 }

/-- The product `addProduct` builds from `sampleDraft` at time 42. -/
def sampleProduct : Product :=
  mkAddedProduct sampleDraft 42 "t0"

/-- A one-product store: `sampleDraft` added to the initial state. -/
def sampleState : InventoryState :=
  step initialState (Action.addFulfilled sampleDraft 42 "t0")

/-- A draft that violates every validation rule of the spec: empty name, sku
and category, negative price and quantity. -/
def invalidDraft : ProductDraft :=
  { name := "", sku := "", category := "", price := -5, quantity := -1, minStock := 10 }

/-- Draft used for the first add of the id-collision scenario. -/
def draftA : ProductDraft :=
  { name := "Alpha", sku := "SKU-A", category := "Books"
    price := 5, quantity := 20, minStock := 10 }

/-- Draft used for the second add of the id-collision scenario. -/
def draftB : ProductDraft :=
  { name := "Beta", sku := "SKU-B", category := "Food"
    price := 6, quantity := 30, minStock := 10 }

/-- The state after adding `draftA` at millisecond 500. -/
def clashState : InventoryState :=
  step initialState (Action.addFulfilled draftA 500 "t1")

/-- The state after adding `draftA` at millisecond 999 and then applying
`updateProduct` with a quantity-only change: the merged entity keeps its old
status tag. -/
def staleState : InventoryState :=
  step (step initialState (Action.addFulfilled draftA 999 "u1"))
    (Action.updateFulfilled "PROD-999" { quantity := some 0 } "u2")

/-- Two overlapping loads: both pendings dispatch, the first load rejects,
then the second fulfills.  The rejection message survives the fulfillment. -/
def staleErrorState : InventoryState :=
  step (step (step (step initialState Action.fetchPending) Action.fetchPending)
    (Action.fetchRejected "Network error: Failed to fetch inventory"))
    (Action.fetchFulfilled 0 (fun i => i) (fun i => i) (fun i => i) (fun _ => "ts"))

/-- One completed (non-overlapping) load of a single product. -/
def atomicSample : InventoryState :=
  step (step initialState Action.fetchPending)
    (Action.fetchFulfilled 1 (fun _ => 50) (fun _ => 0) (fun _ => 5) (fun _ => "ts"))

/-- Sorted insertion permutes consing. -/
theorem insertSorted_perm (p : Product) (l : List Product) :
    (insertSorted p l).Perm (p :: l) := by
  induction l with
  | nil => simp [insertSorted]
  | cons q rest ih =>
    simp only [insertSorted]
    split
    · exact List.Perm.refl _
    · exact (List.Perm.cons q ih).trans (List.Perm.swap p q rest)

/-- Sorting by name permutes the list. -/
theorem sortByName_perm (l : List Product) : (sortByName l).Perm l := by
  induction l with
  | nil => simp [sortByName]
  | cons p rest ih =>
    exact (insertSorted_perm p (sortByName rest)).trans (List.Perm.cons p ih)

/-- Members of the deduplicated list come from the original list. -/
theorem mem_dedupByAux {α β : Type} [DecidableEq β] (k : α → β) (seen : List β)
    (l : List α) (x : α) (h : x ∈ dedupByAux k seen l) : x ∈ l := by
  induction l generalizing seen with
  | nil => simp [dedupByAux] at h
  | cons y rest ih =>
    simp only [dedupByAux] at h
    split at h
    · exact List.mem_cons_of_mem _ (ih _ h)
    · rcases List.mem_cons.mp h with h | h
      · exact h ▸ List.mem_cons_self _ _
      · exact List.mem_cons_of_mem _ (ih _ h)

/-- A key occurs in the deduplicated list iff it occurs in the original list
and was not already seen. -/
theorem key_mem_dedupByAux {α β : Type} [DecidableEq β] (k : α → β) (seen : List β)
    (l : List α) (y : β) :
    y ∈ (dedupByAux k seen l).map k ↔ (y ∈ l.map k ∧ y ∉ seen) := by
  induction l generalizing seen with
  | nil => simp [dedupByAux]
  | cons x rest ih =>
    simp only [dedupByAux, List.map_cons]
    split
    · rename_i hx
      rw [ih]
      simp only [List.mem_cons]
      constructor
      · rintro ⟨h1, h2⟩
        exact ⟨Or.inr h1, h2⟩
      · rintro ⟨h1 | h1, h2⟩
        · exact absurd (h1 ▸ hx) h2
        · exact ⟨h1, h2⟩
    · rename_i hx
      simp only [List.map_cons, List.mem_cons, ih, List.mem_cons, not_or]
      constructor
      · rintro (rfl | ⟨h1, h2, h3⟩)
        · exact ⟨Or.inl rfl, hx⟩
        · exact ⟨Or.inr h1, h3⟩
      · rintro ⟨rfl | h1, h2⟩
        · exact Or.inl rfl
        · rename_i hy
          by_cases hyx : y = k x
          · exact Or.inl hyx
          · exact Or.inr ⟨h1, hyx, h2⟩

/-- The keys of the deduplicated list are pairwise distinct. -/
theorem nodup_key_dedupByAux {α β : Type} [DecidableEq β] (k : α → β) (seen : List β)
    (l : List α) : ((dedupByAux k seen l).map k).Nodup := by
  induction l generalizing seen with
  | nil => simp [dedupByAux]
  | cons x rest ih =>
    simp only [dedupByAux]
    split
    · exact ih seen
    · simp only [List.map_cons, List.nodup_cons]
      refine ⟨?_, ih _⟩
      intro hmem
      exact ((key_mem_dedupByAux k _ rest (k x)).mp hmem).2 (List.mem_cons_self _ _)

/-- Members of `dedupBy` come from the original list. -/
theorem mem_dedupBy {α β : Type} [DecidableEq β] (k : α → β) (l : List α) (x : α)
    (h : x ∈ dedupBy k l) : x ∈ l :=
  mem_dedupByAux k [] l x h

/-- The keys of `dedupBy` are pairwise distinct. -/
theorem nodup_key_dedupBy {α β : Type} [DecidableEq β] (k : α → β) (l : List α) :
    ((dedupBy k l).map k).Nodup :=
  nodup_key_dedupByAux k [] l

/-- `dedupBy` keeps exactly the keys of the original list. -/
theorem key_mem_dedupBy {α β : Type} [DecidableEq β] (k : α → β) (l : List α) (y : β) :
    y ∈ (dedupBy k l).map k ↔ y ∈ l.map k := by
  rw [dedupBy, key_mem_dedupByAux]
  simp

/-- The fold in the statistics selector sums price times quantity. -/
theorem foldl_price_qty (l : List Product) (init : Int) :
    l.foldl (fun sum p => sum + p.price * p.quantity) init
      = init + (l.map (fun p => p.price * p.quantity)).sum := by
  induction l generalizing init with
  | nil => simp
  | cons p rest ih =>
    simp only [List.foldl_cons, List.map_cons, List.sum_cons, ih]
    ring

/-- `setFilter` only touches the filter. -/
theorem setFilter_products (s : InventoryState) (k : FilterKey) (v : String) :
    (setFilter s k v).products = s.products
    ∧ (setFilter s k v).status = s.status ∧ (setFilter s k v).error = s.error := by
  cases k <;> exact ⟨rfl, rfl, rfl⟩

/-- Non-fetch actions leave the request status and error untouched. -/
theorem step_preserves_request (s : InventoryState) (a : Action)
    (h : a.isFetchAct = false) :
    (step s a).status = s.status ∧ (step s a).error = s.error := by
  cases a with
  | fetchPending => simp [Action.isFetchAct] at h
  | fetchFulfilled count qR cR pR tR => simp [Action.isFetchAct] at h
  | fetchRejected msg => simp [Action.isFetchAct] at h
  | addFulfilled d now ts =>
    simp only [step, addOne]
    split <;> exact ⟨rfl, rfl⟩
  | updateFulfilled pid c ts =>
    simp only [step, updateOne]
    split <;> exact ⟨rfl, rfl⟩
  | deleteFulfilled pid => exact ⟨rfl, rfl⟩
  | updateStockAct pid q ts => exact ⟨rfl, rfl⟩
  | setFilterAct k v => exact ⟨(setFilter_products s k v).2.1, (setFilter_products s k v).2.2⟩
  | clearFiltersAct => exact ⟨rfl, rfl⟩
  | setSortAct sb so => exact ⟨rfl, rfl⟩

/-- C4: a failing load (the rejected case of `fetchInventory`) leaves the
previous entities and order untouched — the entity count stays exactly what it
was — while setting the request status to failed and the request error to the
failure message. -/
theorem load_failure_frame (s : InventoryState) (msg : String) :
    (step s (Action.fetchRejected msg)).products = s.products
    ∧ (step s (Action.fetchRejected msg)).products.length = s.products.length
    ∧ (step s (Action.fetchRejected msg)).status = FetchStatus.failed
    ∧ (step s (Action.fetchRejected msg)).error = some msg
    ∧ (step s (Action.fetchRejected msg)).filter = s.filter :=
  ⟨rfl, rfl, rfl, rfl, rfl⟩

/-- C8: after `remove(id)` no entity with that id remains in the collection
(it is gone from both the entities map and the iteration order, which the
model keeps as one list), and removing an id that is absent is a no-op that
returns the state unchanged, hence with the same entity count. -/
theorem remove_spec (s : InventoryState) (pid : String) :
    (∀ p ∈ (step s (Action.deleteFulfilled pid)).products, p.id ≠ pid)
    ∧ pid ∉ (step s (Action.deleteFulfilled pid)).products.map Product.id
    ∧ ((∀ p ∈ s.products, p.id ≠ pid) →
        step s (Action.deleteFulfilled pid) = s
        ∧ (step s (Action.deleteFulfilled pid)).products.length = s.products.length) := by
  refine ⟨?_, ?_, ?_⟩
  · intro p hp
    have h2 := (List.mem_filter.mp hp).2
    simpa using h2
  · intro hmem
    rcases List.mem_map.mp hmem with ⟨p, hp, hid⟩
    have h2 := (List.mem_filter.mp hp).2
    simp only [decide_eq_true_eq] at h2
    exact h2 hid
  · intro h
    have hfe : s.products.filter (fun p => p.id ≠ pid) = s.products := by
      rw [List.filter_eq_self]
      intro p hp
      simpa using h p hp
    have hstep : step s (Action.deleteFulfilled pid) = s := by
      show removeOne s pid = s
      rw [removeOne, hfe]
    exact ⟨hstep, by rw [hstep]⟩

/-- C8 witness: in the one-product sample store, removing the present id
PROD-42 leaves no entity with that id, and removing an absent id is the
identity. -/
theorem remove_spec_witness :
    "PROD-42" ∉ (step sampleState (Action.deleteFulfilled "PROD-42")).products.map Product.id
    ∧ step sampleState (Action.deleteFulfilled "MISSING") = sampleState :=
  ⟨(remove_spec sampleState "PROD-42").2.1,
   ((remove_spec sampleState "MISSING").2.2 (by decide)).1⟩

/-- C2 (amended): `updateQuantity` (the `updateStock` reducer) on an absent id
is a silent no-op rather than a NotFoundError; on a present id it sets the
quantity, recomputes the status with the shared threshold chain, refreshes the
timestamp, and leaves every other entity and the rest of the state unchanged. -/
theorem updateStock_spec (s : InventoryState) (pid : String) (q : Int) (ts : String) :
    ((∀ p ∈ s.products, p.id ≠ pid) → step s (Action.updateStockAct pid q ts) = s)
    ∧ (∀ p ∈ s.products, p.id = pid →
        ({ p with quantity := q, status := computeStatus q p.minStock, lastUpdated := ts } : Product)
          ∈ (step s (Action.updateStockAct pid q ts)).products)
    ∧ (∀ p ∈ s.products, p.id ≠ pid → p ∈ (step s (Action.updateStockAct pid q ts)).products)
    ∧ (step s (Action.updateStockAct pid q ts)).products.length = s.products.length
    ∧ (step s (Action.updateStockAct pid q ts)).status = s.status
    ∧ (step s (Action.updateStockAct pid q ts)).error = s.error
    ∧ (step s (Action.updateStockAct pid q ts)).filter = s.filter := by
  refine ⟨?_, ?_, ?_, ?_, rfl, rfl, rfl⟩
  · intro h
    have hmap : s.products.map (fun p =>
        if p.id = pid then
          { p with quantity := q, status := computeStatus q p.minStock, lastUpdated := ts }
        else p) = s.products := by
      conv_rhs => rw [← List.map_id s.products]
      refine List.map_congr_left ?_
      intro p hp
      simp [if_neg (h p hp)]
    show updateStock s pid q ts = s
    rw [updateStock, hmap]
  · intro p hp hid
    show _ ∈ List.map _ s.products
    refine List.mem_map.mpr ⟨p, hp, ?_⟩
    simp [hid]
  · intro p hp hid
    show _ ∈ List.map _ s.products
    refine List.mem_map.mpr ⟨p, hp, ?_⟩
    simp [hid]
  · exact s.products.length_map _

/-- C2 witness: updating the quantity of the present id PROD-42 to zero yields
the out-of-stock entity with the fresh timestamp, and updating an absent id
returns the sample state unchanged. -/
theorem updateStock_spec_witness :
    ({ id := "PROD-42", name := "Widget", sku := "SKU-W", category := "Books",
       price := 10, quantity := 0, minStock := 10, status := Status.outOfStock,
       lastUpdated := "t9" } : Product)
      ∈ (step sampleState (Action.updateStockAct "PROD-42" 0 "t9")).products
    ∧ step sampleState (Action.updateStockAct "MISSING" 7 "t9") = sampleState :=
  ⟨(updateStock_spec sampleState "PROD-42" 0 "t9").2.1 sampleProduct (by decide) (by decide),
   (updateStock_spec sampleState "MISSING" 7 "t9").1 (by decide)⟩

/-- C2 counterexample: `updateQuantity` on an id that is absent does not fail
with a NotFoundError — the reducer body is skipped, the state is returned
unchanged, and no error of any kind is recorded anywhere in the state. -/
theorem updateStock_absent_no_error_cex :
    step sampleState (Action.updateStockAct "MISSING" 7 "t9") = sampleState
    ∧ (step sampleState (Action.updateStockAct "MISSING" 7 "t9")).error = none := by
  constructor <;> decide

/-- The three status buckets partition any product list. -/
theorem status_filter_partition (l : List Product) :
    (l.filter (fun p => p.status = Status.inStock)).length
      + (l.filter (fun p => p.status = Status.lowStock)).length
      + (l.filter (fun p => p.status = Status.outOfStock)).length = l.length := by
  induction l with
  | nil => rfl
  | cons p rest ih =>
    rcases hs : p.status <;> simp [List.filter_cons, hs] <;> omega

/-- C10: the three status-bucket counts of `selectInventoryStats` always sum
to the total entity count: every entity carries exactly one of the three
status tags. -/
theorem stats_partition (s : InventoryState) :
    (selectInventoryStats s).inStock + (selectInventoryStats s).lowStock
      + (selectInventoryStats s).outOfStock = (selectInventoryStats s).total :=
  status_filter_partition (selectAllProducts s)

/-- C6: with the filter category all, status all and empty search term, every
product matches all three predicates, so the filtered selector returns exactly
the full ordered collection. -/
theorem filtered_identity (s : InventoryState)
    (h : s.filter = { category := "all", status := "all", searchTerm := "" }) :
    selectFilteredProducts s = selectAllProducts s := by
  unfold selectFilteredProducts selectAllProducts
  rw [h]
  simp

/-- C6 witness: the identity filter case evaluated on the one-product sample
store. -/
theorem filtered_identity_witness :
    selectFilteredProducts sampleState = selectAllProducts sampleState :=
  filtered_identity sampleState (by decide)

/-- C5: the statistics selector is computed over the full collection — it is
invariant under any change of the filter — and returns exactly the total
count, the count of each status bucket, the sum of price times quantity, and
the duplicate-free set of category labels of the full collection. -/
theorem stats_spec (s : InventoryState) (f : Filter) :
    selectInventoryStats { s with filter := f } = selectInventoryStats s
    ∧ (selectInventoryStats s).total = (selectAllProducts s).length
    ∧ (selectInventoryStats s).inStock
        = (selectAllProducts s).countP (fun p => p.status = Status.inStock)
    ∧ (selectInventoryStats s).lowStock
        = (selectAllProducts s).countP (fun p => p.status = Status.lowStock)
    ∧ (selectInventoryStats s).outOfStock
        = (selectAllProducts s).countP (fun p => p.status = Status.outOfStock)
    ∧ (selectInventoryStats s).totalValue
        = ((selectAllProducts s).map (fun p => p.price * p.quantity)).sum
    ∧ (selectInventoryStats s).categories.Nodup
    ∧ (∀ c, c ∈ (selectInventoryStats s).categories
        ↔ ∃ p ∈ selectAllProducts s, p.category = c) := by
  refine ⟨rfl, rfl, ?_, ?_, ?_, ?_, ?_, ?_⟩
  · exact (List.countP_eq_length_filter _ _).symm
  · exact (List.countP_eq_length_filter _ _).symm
  · exact (List.countP_eq_length_filter _ _).symm
  · show (selectAllProducts s).foldl (fun sum p => sum + p.price * p.quantity) 0 = _
    rw [foldl_price_qty]
    ring
  · show (dedupBy (fun c => c) ((selectAllProducts s).map (fun p => p.category))).Nodup
    have h := nodup_key_dedupBy (fun c : String => c)
      ((selectAllProducts s).map (fun p => p.category))
    simpa using h
  · intro c
    show c ∈ dedupBy (fun c => c) ((selectAllProducts s).map (fun p => p.category)) ↔ _
    have h := key_mem_dedupBy (fun c : String => c)
      ((selectAllProducts s).map (fun p => p.category)) c
    simp only [List.map_id'] at h
    rw [h, List.mem_map]

/-- C3 counterexample: a draft with every required field empty and negative
price and quantity is not rejected — `add` inserts it and the state changes,
so no ValidationError path exists on the store. -/
theorem add_no_validation_cex :
    (step initialState (Action.addFulfilled invalidDraft 123 "T")).products
      = [{ id := "PROD-123", name := "", sku := "", category := "", price := -5,
           quantity := -1, minStock := 10, status := Status.lowStock, lastUpdated := "T" }]
    ∧ step initialState (Action.addFulfilled invalidDraft 123 "T") ≠ initialState := by
  constructor <;> decide

/-- C3 (amended): the store performs no validation in `add`: for every draft,
however malformed (missing name, sku or category, negative price or quantity),
whenever the generated id is not already present the computed product is
inserted into the collection and the entity count grows by one. -/
theorem add_inserts_any_draft (s : InventoryState) (d : ProductDraft) (now : Nat)
    (ts : String) (h : ∀ p ∈ s.products, p.id ≠ "PROD-" ++ toString now) :
    mkAddedProduct d now ts ∈ (step s (Action.addFulfilled d now ts)).products
    ∧ (step s (Action.addFulfilled d now ts)).products.length
        = s.products.length + 1 := by
  have hany : s.products.any (fun q => q.id = (mkAddedProduct d now ts).id) = false := by
    rw [List.any_eq_false]
    intro p hp
    simpa using h p hp
  have hstep : step s (Action.addFulfilled d now ts)
      = { s with products := insertSorted (mkAddedProduct d now ts) s.products } := by
    show addOne s (mkAddedProduct d now ts) = _
    rw [addOne, if_neg]
    rw [hany]
    simp
  rw [hstep]
  constructor
  · exact (insertSorted_perm (mkAddedProduct d now ts) s.products).mem_iff.mpr
      (List.mem_cons_self _ _)
  · have := (insertSorted_perm (mkAddedProduct d now ts) s.products).length_eq
    simpa using this

/-- C3 witness: the invalid draft inserted into the empty initial store. -/
theorem add_inserts_any_draft_witness :
    mkAddedProduct invalidDraft 123 "T"
      ∈ (step initialState (Action.addFulfilled invalidDraft 123 "T")).products
    ∧ (step initialState (Action.addFulfilled invalidDraft 123 "T")).products.length
        = initialState.products.length + 1 :=
  add_inserts_any_draft initialState invalidDraft 123 "T" (by decide)

/-- C7 counterexample: two adds in the same millisecond both derive the id
PROD-500 from the clock; at the second add that id is already present in the
reachable one-product store, so the assigned id is not disjoint from the
existing ids — and the insert is silently dropped. -/
theorem add_id_clash_cex :
    Reachable clashState
    ∧ (mkAddedProduct draftB 500 "t2").id ∈ clashState.products.map Product.id
    ∧ step clashState (Action.addFulfilled draftB 500 "t2") = clashState := by
  refine ⟨?_, by decide, by decide⟩
  show Reachable (step initialState (Action.addFulfilled draftA 500 "t1"))
  exact Reachable.next _ _ Reachable.init

/-- C7 (amended): although adds in the same millisecond reuse an existing id,
the collection itself never holds duplicate ids: in every reachable store
state (any dispatch sequence whatsoever) the ids are pairwise distinct,
because a colliding insert is ignored. -/
theorem unique_ids (s : InventoryState) (h : Reachable s) : UniqueIds s := by
  induction h with
  | init => simp [UniqueIds, initialState]
  | next s a hs ih =>
    cases a with
    | fetchPending => exact ih
    | fetchRejected msg => exact ih
    | clearFiltersAct => exact ih
    | setSortAct sb so => exact ih
    | setFilterAct k v =>
      show ((setFilter s k v).products.map Product.id).Nodup
      rw [(setFilter_products s k v).1]
      exact ih
    | fetchFulfilled count qR cR pR tR =>
      show ((sortByName (dedupBy Product.id
        (generateMockProducts count qR cR pR tR))).map Product.id).Nodup
      exact (((sortByName_perm _).map Product.id).nodup_iff).mpr (nodup_key_dedupBy _ _)
    | deleteFulfilled pid =>
      show ((s.products.filter _).map Product.id).Nodup
      exact ih.sublist ((List.filter_sublist _).map Product.id)
    | updateStockAct pid q ts =>
      show ((s.products.map _).map Product.id).Nodup
      rw [List.map_map]
      have hcong : s.products.map (Product.id ∘ (fun p =>
          if p.id = pid then
            { p with quantity := q, status := computeStatus q p.minStock, lastUpdated := ts }
          else p)) = s.products.map Product.id := by
        refine List.map_congr_left ?_
        intro p hp
        by_cases hid : p.id = pid <;> simp [Function.comp, hid]
      rw [hcong]
      exact ih
    | addFulfilled d now ts =>
      show UniqueIds (addOne s (mkAddedProduct d now ts))
      rw [addOne]
      split
      · exact ih
      · rename_i hany
        show ((insertSorted _ s.products).map Product.id).Nodup
        refine (((insertSorted_perm _ _).map Product.id).nodup_iff).mpr ?_
        rw [List.map_cons]
        refine List.nodup_cons.mpr ⟨?_, ih⟩
        intro hmem
        rcases List.mem_map.mp hmem with ⟨p, hp, hid⟩
        refine hany ?_
        rw [List.any_eq_true]
        exact ⟨p, hp, by simpa using hid⟩
    | updateFulfilled pid c ts =>
      show UniqueIds (updateOne s pid { c with lastUpdated := some ts })
      unfold updateOne
      split
      · exact ih
      · rename_i p hf
        show ((insertSorted _ _).map Product.id).Nodup
        refine (((insertSorted_perm _ _).map Product.id).nodup_iff).mpr ?_
        rw [List.map_cons]
        refine List.nodup_cons.mpr ⟨?_, ?_⟩
        · intro hmem
          rcases List.mem_map.mp hmem with ⟨r, hr, hid⟩
          have h2 := (List.mem_filter.mp hr).2
          simp only [decide_eq_true_eq] at h2
          exact h2 hid
        · have hsub : List.Sublist
              ((s.products.filter (fun r => r.id ≠ pid)).filter
                (fun r => r.id ≠ (applyChanges p { c with lastUpdated := some ts }).id))
              s.products :=
            (List.filter_sublist _).trans (List.filter_sublist _)
          exact ih.sublist (hsub.map Product.id)

/-- C7 witness: the ids of the reachable one-product store are pairwise
distinct. -/
theorem unique_ids_witness : UniqueIds clashState := by
  have h : Reachable clashState := by
    show Reachable (step initialState (Action.addFulfilled draftA 500 "t1"))
    exact Reachable.next _ _ Reachable.init
  exact unique_ids clashState h

/-- Every product produced by the mock generator carries the status recomputed
from its quantity and threshold: the generator uses the same threshold chain. -/
theorem generator_status (count : Nat) (qR cR pR : Nat → Nat) (tR : Nat → String)
    (p : Product) (hp : p ∈ generateMockProducts count qR cR pR tR) :
    p.status = computeStatus p.quantity p.minStock := by
  rcases List.mem_map.mp hp with ⟨i, _, rfl⟩
  rfl

/-- C1 counterexample: from the initial state, add a product (quantity 20,
threshold 10, in-stock) and then apply `update` with a quantity-only change to
0.  The resulting state is reachable, yet its only entity has quantity 0,
threshold 10 and the stale tag in-stock, while the recomputation rule demands
out-of-stock: the `update` path sets status inconsistently with the rule. -/
theorem status_invariant_cex :
    Reachable staleState
    ∧ staleState.products.map (fun p => (p.quantity, p.minStock, p.status))
        = [((0 : Int), (10 : Int), Status.inStock)]
    ∧ computeStatus 0 10 = Status.outOfStock := by
  refine ⟨?_, by decide, by decide⟩
  show Reachable (step (step initialState (Action.addFulfilled draftA 999 "u1"))
    (Action.updateFulfilled "PROD-999" { quantity := some 0 } "u2"))
  exact Reachable.next _ _ (Reachable.next _ _ Reachable.init)

/-- C1 (amended): in every state reachable by load, add, updateQuantity,
remove and filter/sort operations — excluding `update`, which merges partial
changes without recomputing status — every entity carries the status
recomputed by the shared threshold chain: out-of-stock at quantity 0,
low-stock when the quantity is below the threshold, in-stock otherwise (for
the non-negative quantities of the data model this is exactly the claimed
rule). -/
theorem status_invariant_no_update (s : InventoryState) (h : ReachableNoUpd s) :
    StatusConsistent s := by
  induction h with
  | init =>
    intro p hp
    simp [initialState] at hp
  | next s a hs hna ih =>
    cases a with
    | updateFulfilled pid c ts => simp [Action.isUpdateAct] at hna
    | fetchPending => exact ih
    | fetchRejected msg => exact ih
    | clearFiltersAct => exact ih
    | setSortAct sb so => exact ih
    | setFilterAct k v =>
      intro p hp
      have hp2 : p ∈ (setFilter s k v).products := hp
      rw [(setFilter_products s k v).1] at hp2
      exact ih p hp2
    | fetchFulfilled count qR cR pR tR =>
      intro p hp
      have hp2 : p ∈ dedupBy Product.id (generateMockProducts count qR cR pR tR) :=
        (sortByName_perm _).mem_iff.mp hp
      exact generator_status count qR cR pR tR p (mem_dedupBy _ _ _ hp2)
    | deleteFulfilled pid =>
      intro p hp
      exact ih p (List.mem_of_mem_filter hp)
    | addFulfilled d now ts =>
      show StatusConsistent (addOne s (mkAddedProduct d now ts))
      rw [addOne]
      split
      · exact ih
      · intro p hp
        rcases List.mem_cons.mp ((insertSorted_perm _ _).mem_iff.mp hp) with h1 | h1
        · subst h1; rfl
        · exact ih p h1
    | updateStockAct pid q ts =>
      intro p hp
      rcases List.mem_map.mp hp with ⟨r, hr, rfl⟩
      by_cases hid : r.id = pid
      · simp only [if_pos hid]
      · simp only [if_neg hid]
        exact ih r hr

/-- C1 witness: the invariant evaluated on the reachable one-product sample
store, whose only entity is in-stock with quantity 50 and threshold 10. -/
theorem status_invariant_witness : StatusConsistent sampleState := by
  have h : ReachableNoUpd sampleState := by
    show ReachableNoUpd (step initialState (Action.addFulfilled sampleDraft 42 "t0"))
    exact ReachableNoUpd.next _ _ ReachableNoUpd.init rfl
  exact status_invariant_no_update sampleState h

/-- C9 counterexample: with two overlapping loads (both pendings dispatch, the
first load rejects, the second fulfills) the store reaches a state whose
request status is succeeded while the request error still holds the stale
rejection message: the fulfilled case never clears the error. -/
theorem error_stale_cex :
    Reachable staleErrorState
    ∧ staleErrorState.status = FetchStatus.succeeded
    ∧ staleErrorState.error = some "Network error: Failed to fetch inventory" := by
  refine ⟨?_, by decide, by decide⟩
  show Reachable (step (step (step (step initialState Action.fetchPending)
    Action.fetchPending)
    (Action.fetchRejected "Network error: Failed to fetch inventory"))
    (Action.fetchFulfilled 0 (fun i => i) (fun i => i) (fun i => i) (fun _ => "ts")))
  exact Reachable.next _ _ (Reachable.next _ _ (Reachable.next _ _
    (Reachable.next _ _ Reachable.init)))

/-- C9 (amended): as long as loads do not overlap — every pending is
immediately settled by its own fulfilled or rejected action before the next
dispatch — the invariant holds: in every reachable state the request error is
null whenever the request status is not failed. -/
theorem error_null_unless_failed (s : InventoryState) (h : ReachableAtomic s) :
    s.status ≠ FetchStatus.failed → s.error = none := by
  induction h with
  | init => intro _; rfl
  | loadOk s count qR cR pR tR hra ih => intro _; rfl
  | loadErr s msg hra ih => intro hs; exact absurd rfl hs
  | other s a hra hna ih =>
    intro hs
    have hps := step_preserves_request s a hna
    rw [hps.2]
    refine ih ?_
    rw [← hps.1]
    exact hs

/-- C9 witness: after one completed (non-overlapping) load the status is
succeeded, not failed, and the error is null. -/
theorem error_null_witness :
    atomicSample.status ≠ FetchStatus.failed ∧ atomicSample.error = none := by
  have h : ReachableAtomic atomicSample := by
    show ReachableAtomic (step (step initialState Action.fetchPending)
      (Action.fetchFulfilled 1 (fun _ => 50) (fun _ => 0) (fun _ => 5) (fun _ => "ts")))
    exact ReachableAtomic.loadOk _ _ _ _ _ _ ReachableAtomic.init
  exact ⟨by decide, error_null_unless_failed atomicSample h (by decide)⟩

/-- C4 witness: the failing load applied to the one-product sample store. -/
theorem load_failure_frame_witness :
    (step sampleState (Action.fetchRejected "boom")).products = sampleState.products
    ∧ (step sampleState (Action.fetchRejected "boom")).status = FetchStatus.failed
    ∧ (step sampleState (Action.fetchRejected "boom")).error = some "boom" :=
  ⟨(load_failure_frame sampleState "boom").1,
   (load_failure_frame sampleState "boom").2.2.1,
   (load_failure_frame sampleState "boom").2.2.2.1⟩

/-- C5 witness: two of the statistics equations evaluated on the sample
store. -/
theorem stats_spec_witness :
    (selectInventoryStats sampleState).total = (selectAllProducts sampleState).length
    ∧ (selectInventoryStats sampleState).totalValue
        = ((selectAllProducts sampleState).map (fun p => p.price * p.quantity)).sum :=
  ⟨(stats_spec sampleState sampleState.filter).2.1,
   (stats_spec sampleState sampleState.filter).2.2.2.2.2.1⟩

/-- C10 witness: the bucket partition evaluated on the sample store. -/
theorem stats_partition_witness :
    (selectInventoryStats sampleState).inStock
      + (selectInventoryStats sampleState).lowStock
      + (selectInventoryStats sampleState).outOfStock
      = (selectInventoryStats sampleState).total :=
  stats_partition sampleState

end Inventory
